import Mathlib

/-!
Verification of the yatotp OTP engine and encrypted-database envelope.

The development shallowly embeds the Rust sources:

* `src/otp.rs`: `HashType`, `HotpClient` (HMAC over SHA-1 / SHA-256 /
  SHA-512, RFC 4226 dynamic truncation), `TotpClient` (time windowing,
  base32 key decoding).
* `src/database.rs`: `EncryptedDatabase` (Argon2id key derivation +
  ChaCha20Poly1305 envelope, base64 fields), `save_database`,
  `load_database`.

Machine integers are modelled as `Nat` with explicit wrap-around
(`% 2 ^ 32`, `% 2 ^ 64`) where the Rust release build wraps; a Rust panic
(`unwrap` failure, out-of-bounds index, `from_slice` length mismatch) is
modelled as the `RustRes.fatal` outcome, an `anyhow` error as
`RustRes.err`.  The hash functions and both RFC 4648 codecs are embedded
concretely; the external crates that are not part of the repository
(argon2, chacha20poly1305, serde_json, UTF-8 conversion) are parameters of
the database layer, collected in `CryptoExt`, with their documented
behaviour taken as hypotheses where a theorem needs it.
-/

set_option maxRecDepth 100000

/-- Big-endian byte encoding: the low `n` bytes of `x`, most significant
first.  Models Rust `to_be_bytes` on an `n`-byte unsigned integer. -/
def beBytes : Nat → Nat → List Nat
  | 0, _ => []
  | n + 1, x => beBytes n (x / 256) ++ [x % 256]

/-- Big-endian reading of a byte list as an unsigned integer.  Models
`u32::from_be_bytes` when the list has 4 bytes. -/
def beVal (l : List Nat) : Nat := l.foldl (fun acc b => acc * 256 + b) 0

/-- 32-bit left rotation (operand `< 2 ^ 32`). -/
def rotl32 (x k : Nat) : Nat := ((x <<< k) ||| (x >>> (32 - k))) % 2 ^ 32

/-- 32-bit right rotation (operand `< 2 ^ 32`). -/
def rotr32 (x k : Nat) : Nat := ((x >>> k) ||| (x <<< (32 - k))) % 2 ^ 32

/-- 64-bit right rotation (operand `< 2 ^ 64`). -/
def rotr64 (x k : Nat) : Nat := ((x >>> k) ||| (x <<< (64 - k))) % 2 ^ 64

/-- Split a byte list into big-endian 32-bit words (4 bytes each). -/
def toWords4 : List Nat → List Nat
  | b0 :: b1 :: b2 :: b3 :: rest =>
    (((b0 * 256 + b1) * 256 + b2) * 256 + b3) :: toWords4 rest
  | _ => []

/-- Split a byte list into big-endian 64-bit words (8 bytes each). -/
def toWords8 : List Nat → List Nat
  | b0 :: b1 :: b2 :: b3 :: b4 :: b5 :: b6 :: b7 :: rest =>
    (((((((b0 * 256 + b1) * 256 + b2) * 256 + b3) * 256 + b4) * 256 + b5) * 256 + b6) * 256
      + b7) :: toWords8 rest
  | _ => []

/-- Split a list into chunks of size `n`; `fuel` bounds the recursion
(callers pass the list length). -/
def chunksOf (n : Nat) : Nat → List Nat → List (List Nat)
  | 0, _ => []
  | _, [] => []
  | fuel + 1, l => l.take n :: chunksOf n fuel (l.drop n)

/-- SHA-1 / SHA-256 message padding: append `0x80`, zeros, and the 8-byte
big-endian bit length, reaching a multiple of 64 bytes. -/
def padMsg64 (msg : List Nat) : List Nat :=
  let len := msg.length
  let k := (64 + 56 - (len + 1) % 64) % 64
  msg ++ [0x80] ++ List.replicate k 0 ++ beBytes 8 (len * 8)

/-- SHA-512 message padding: append `0x80`, zeros, and the 16-byte
big-endian bit length, reaching a multiple of 128 bytes. -/
def padMsg128 (msg : List Nat) : List Nat :=
  let len := msg.length
  let k := (128 + 112 - (len + 1) % 128) % 128
  msg ++ [0x80] ++ List.replicate k 0 ++ beBytes 16 (len * 8)

/-- SHA-1 message-schedule extension, building words 16..79 in reverse
order on top of the reversed first 16 words. -/
def sha1ExtendRev (acc : List Nat) : Nat → List Nat
  | 0 => acc
  | k + 1 =>
    sha1ExtendRev
      (rotl32 (acc.getD 2 0 ^^^ acc.getD 7 0 ^^^ acc.getD 13 0 ^^^ acc.getD 15 0) 1 :: acc) k

/-- The 80-word SHA-1 message schedule of one 64-byte block. -/
def sha1Schedule (block : List Nat) : List Nat :=
  (sha1ExtendRev (toWords4 block).reverse 64).reverse

/-- One SHA-1 round: round index `i`, schedule word `w`. -/
def sha1Round (i w : Nat) (st : Nat × Nat × Nat × Nat × Nat) : Nat × Nat × Nat × Nat × Nat :=
  let (a, b, c, d, e) := st
  let f :=
    if i < 20 then (b &&& c) ||| ((b ^^^ 0xFFFFFFFF) &&& d)
    else if i < 40 then b ^^^ c ^^^ d
    else if i < 60 then (b &&& c) ||| (b &&& d) ||| (c &&& d)
    else b ^^^ c ^^^ d
  let k :=
    if i < 20 then 1518500249
    else if i < 40 then 1859775393
    else if i < 60 then 2400959708
    else 3395469782
  let temp := (rotl32 a 5 + f + e + k + w) % 2 ^ 32
  (temp, a, rotl32 b 30, c, d)

/-- SHA-1 compression of one 64-byte block into the running state. -/
def sha1Compress (st : Nat × Nat × Nat × Nat × Nat) (block : List Nat) :
    Nat × Nat × Nat × Nat × Nat :=
  let ws := sha1Schedule block
  let fin := ws.enum.foldl (fun s iw => sha1Round iw.1 iw.2 s) st
  let (h0, h1, h2, h3, h4) := st
  let (a, b, c, d, e) := fin
  ((h0 + a) % 2 ^ 32, (h1 + b) % 2 ^ 32, (h2 + c) % 2 ^ 32, (h3 + d) % 2 ^ 32,
    (h4 + e) % 2 ^ 32)

/-- SHA-1 of a byte list, as its 20-byte digest. -/
def sha1 (msg : List Nat) : List Nat :=
  let padded := padMsg64 msg
  let st := (chunksOf 64 padded.length padded).foldl sha1Compress
    (1732584193, 4023233417, 2562383102, 271733878, 3285377520)
  beBytes 4 st.1 ++ beBytes 4 st.2.1 ++ beBytes 4 st.2.2.1 ++ beBytes 4 st.2.2.2.1 ++
    beBytes 4 st.2.2.2.2

/-- The 64 SHA-256 round constants. -/
def K256 : List Nat :=
  [1116352408, 1899447441, 3049323471, 3921009573, 961987163, 1508970993,
   2453635748, 2870763221, 3624381080, 310598401, 607225278, 1426881987,
   1925078388, 2162078206, 2614888103, 3248222580, 3835390401, 4022224774,
   264347078, 604807628, 770255983, 1249150122, 1555081692, 1996064986,
   2554220882, 2821834349, 2952996808, 3210313671, 3336571891, 3584528711,
   113926993, 338241895, 666307205, 773529912, 1294757372, 1396182291,
   1695183700, 1986661051, 2177026350, 2456956037, 2730485921, 2820302411,
   3259730800, 3345764771, 3516065817, 3600352804, 4094571909, 275423344,
   430227734, 506948616, 659060556, 883997877, 958139571, 1322822218,
   1537002063, 1747873779, 1955562222, 2024104815, 2227730452, 2361852424,
   2428436474, 2756734187, 3204031479, 3329325298]

/-- SHA-256 schedule extension in reverse order. -/
def sha256ExtendRev (acc : List Nat) : Nat → List Nat
  | 0 => acc
  | k + 1 =>
    let w15 := acc.getD 14 0
    let w2 := acc.getD 1 0
    let s0 := rotr32 w15 7 ^^^ rotr32 w15 18 ^^^ (w15 >>> 3)
    let s1 := rotr32 w2 17 ^^^ rotr32 w2 19 ^^^ (w2 >>> 10)
    sha256ExtendRev (((acc.getD 15 0 + s0 + acc.getD 6 0 + s1) % 2 ^ 32) :: acc) k

/-- The 64-word SHA-256 message schedule of one 64-byte block. -/
def sha256Schedule (block : List Nat) : List Nat :=
  (sha256ExtendRev (toWords4 block).reverse 48).reverse

/-- One SHA-256 round with constant and schedule word `kw`. -/
def sha256Round (kw : Nat × Nat)
    (st : Nat × Nat × Nat × Nat × Nat × Nat × Nat × Nat) :
    Nat × Nat × Nat × Nat × Nat × Nat × Nat × Nat :=
  let (a, b, c, d, e, f, g, h) := st
  let S1 := rotr32 e 6 ^^^ rotr32 e 11 ^^^ rotr32 e 25
  let ch := (e &&& f) ^^^ ((e ^^^ 0xFFFFFFFF) &&& g)
  let temp1 := (h + S1 + ch + kw.1 + kw.2) % 2 ^ 32
  let S0 := rotr32 a 2 ^^^ rotr32 a 13 ^^^ rotr32 a 22
  let maj := (a &&& b) ^^^ (a &&& c) ^^^ (b &&& c)
  let temp2 := (S0 + maj) % 2 ^ 32
  ((temp1 + temp2) % 2 ^ 32, a, b, c, (d + temp1) % 2 ^ 32, e, f, g)

/-- SHA-256 compression of one 64-byte block. -/
def sha256Compress (st : Nat × Nat × Nat × Nat × Nat × Nat × Nat × Nat)
    (block : List Nat) : Nat × Nat × Nat × Nat × Nat × Nat × Nat × Nat :=
  let ws := sha256Schedule block
  let fin := (K256.zip ws).foldl (fun s kw => sha256Round kw s) st
  let (h0, h1, h2, h3, h4, h5, h6, h7) := st
  let (a, b, c, d, e, f, g, h) := fin
  ((h0 + a) % 2 ^ 32, (h1 + b) % 2 ^ 32, (h2 + c) % 2 ^ 32, (h3 + d) % 2 ^ 32,
   (h4 + e) % 2 ^ 32, (h5 + f) % 2 ^ 32, (h6 + g) % 2 ^ 32, (h7 + h) % 2 ^ 32)

/-- SHA-256 of a byte list, as its 32-byte digest. -/
def sha256 (msg : List Nat) : List Nat :=
  let padded := padMsg64 msg
  let st := (chunksOf 64 padded.length padded).foldl sha256Compress
    (1779033703, 3144134277, 1013904242, 2773480762, 1359893119, 2600822924, 528734635,
      1541459225)
  beBytes 4 st.1 ++ beBytes 4 st.2.1 ++ beBytes 4 st.2.2.1 ++ beBytes 4 st.2.2.2.1 ++
    beBytes 4 st.2.2.2.2.1 ++ beBytes 4 st.2.2.2.2.2.1 ++ beBytes 4 st.2.2.2.2.2.2.1 ++
    beBytes 4 st.2.2.2.2.2.2.2

/-- The 80 SHA-512 round constants. -/
def K512 : List Nat :=
  [4794697086780616226, 8158064640168781261, 13096744586834688815, 16840607885511220156,
   4131703408338449720, 6480981068601479193, 10538285296894168987, 12329834152419229976,
   15566598209576043074, 1334009975649890238, 2608012711638119052, 6128411473006802146,
   8268148722764581231, 9286055187155687089, 11230858885718282805, 13951009754708518548,
   16472876342353939154, 17275323862435702243, 1135362057144423861, 2597628984639134821,
   3308224258029322869, 5365058923640841347, 6679025012923562964, 8573033837759648693,
   10970295158949994411, 12119686244451234320, 12683024718118986047, 13788192230050041572,
   14330467153632333762, 15395433587784984357, 489312712824947311, 1452737877330783856,
   2861767655752347644, 3322285676063803686, 5560940570517711597, 5996557281743188959,
   7280758554555802590, 8532644243296465576, 9350256976987008742, 10552545826968843579,
   11727347734174303076, 12113106623233404929, 14000437183269869457, 14369950271660146224,
   15101387698204529176, 15463397548674623760, 17586052441742319658, 1182934255886127544,
   1847814050463011016, 2177327727835720531, 2830643537854262169, 3796741975233480872,
   4115178125766777443, 5681478168544905931, 6601373596472566643, 7507060721942968483,
   8399075790359081724, 8693463985226723168, 9568029438360202098, 10144078919501101548,
   10430055236837252648, 11840083180663258601, 13761210420658862357, 14299343276471374635,
   14566680578165727644, 15097957966210449927, 16922976911328602910, 17689382322260857208,
   500013540394364858, 748580250866718886, 1242879168328830382, 1977374033974150939,
   2944078676154940804, 3659926193048069267, 4368137639120453308, 4836135668995329356,
   5532061633213252278, 6448918945643986474, 6902733635092675308, 7801388544844847127]

/-- SHA-512 schedule extension in reverse order. -/
def sha512ExtendRev (acc : List Nat) : Nat → List Nat
  | 0 => acc
  | k + 1 =>
    let w15 := acc.getD 14 0
    let w2 := acc.getD 1 0
    let s0 := rotr64 w15 1 ^^^ rotr64 w15 8 ^^^ (w15 >>> 7)
    let s1 := rotr64 w2 19 ^^^ rotr64 w2 61 ^^^ (w2 >>> 6)
    sha512ExtendRev (((acc.getD 15 0 + s0 + acc.getD 6 0 + s1) % 2 ^ 64) :: acc) k

/-- The 80-word SHA-512 message schedule of one 128-byte block. -/
def sha512Schedule (block : List Nat) : List Nat :=
  (sha512ExtendRev (toWords8 block).reverse 64).reverse

/-- One SHA-512 round with constant and schedule word `kw`. -/
def sha512Round (kw : Nat × Nat)
    (st : Nat × Nat × Nat × Nat × Nat × Nat × Nat × Nat) :
    Nat × Nat × Nat × Nat × Nat × Nat × Nat × Nat :=
  let (a, b, c, d, e, f, g, h) := st
  let S1 := rotr64 e 14 ^^^ rotr64 e 18 ^^^ rotr64 e 41
  let ch := (e &&& f) ^^^ ((e ^^^ 0xFFFFFFFFFFFFFFFF) &&& g)
  let temp1 := (h + S1 + ch + kw.1 + kw.2) % 2 ^ 64
  let S0 := rotr64 a 28 ^^^ rotr64 a 34 ^^^ rotr64 a 39
  let maj := (a &&& b) ^^^ (a &&& c) ^^^ (b &&& c)
  let temp2 := (S0 + maj) % 2 ^ 64
  ((temp1 + temp2) % 2 ^ 64, a, b, c, (d + temp1) % 2 ^ 64, e, f, g)

/-- SHA-512 compression of one 128-byte block. -/
def sha512Compress (st : Nat × Nat × Nat × Nat × Nat × Nat × Nat × Nat)
    (block : List Nat) : Nat × Nat × Nat × Nat × Nat × Nat × Nat × Nat :=
  let ws := sha512Schedule block
  let fin := (K512.zip ws).foldl (fun s kw => sha512Round kw s) st
  let (h0, h1, h2, h3, h4, h5, h6, h7) := st
  let (a, b, c, d, e, f, g, h) := fin
  ((h0 + a) % 2 ^ 64, (h1 + b) % 2 ^ 64, (h2 + c) % 2 ^ 64, (h3 + d) % 2 ^ 64,
   (h4 + e) % 2 ^ 64, (h5 + f) % 2 ^ 64, (h6 + g) % 2 ^ 64, (h7 + h) % 2 ^ 64)

/-- SHA-512 of a byte list, as its 64-byte digest. -/
def sha512 (msg : List Nat) : List Nat :=
  let padded := padMsg128 msg
  let st := (chunksOf 128 padded.length padded).foldl sha512Compress
    (7640891576956012808, 13503953896175478587, 4354685564936845355, 11912009170470909681,
     5840696475078001361, 11170449401992604703, 2270897969802886507, 6620516959819538809)
  beBytes 8 st.1 ++ beBytes 8 st.2.1 ++ beBytes 8 st.2.2.1 ++ beBytes 8 st.2.2.2.1 ++
    beBytes 8 st.2.2.2.2.1 ++ beBytes 8 st.2.2.2.2.2.1 ++ beBytes 8 st.2.2.2.2.2.2.1 ++
    beBytes 8 st.2.2.2.2.2.2.2

/-- The HMAC construction (RFC 2104) over a hash with the given block size
in bytes.  Models the Rust hmac crate, which accepts keys of any length
(hashing keys longer than the block size, zero-padding shorter ones). -/
def hmac (hash : List Nat → List Nat) (blockSize : Nat) (key msg : List Nat) : List Nat :=
  let k0 := if blockSize < key.length then hash key else key
  let k := k0 ++ List.replicate (blockSize - k0.length) 0
  hash ((k.map (fun b => b ^^^ 0x5c)) ++ hash ((k.map (fun b => b ^^^ 0x36)) ++ msg))

/-- HMAC-SHA-1, as `HotpClient::hmac_sha1` computes it. -/
def hmacSha1 (key msg : List Nat) : List Nat := hmac sha1 64 key msg

/-- HMAC-SHA-256, as `HotpClient::hmac_sha256` computes it. -/
def hmacSha256 (key msg : List Nat) : List Nat := hmac sha256 64 key msg

/-- HMAC-SHA-512, as `HotpClient::hmac_sha512` computes it. -/
def hmacSha512 (key msg : List Nat) : List Nat := hmac sha512 128 key msg

/-- Value of a base64 alphabet character (RFC 4648 section 4). -/
def b64CharVal (c : Char) : Option Nat :=
  let v := c.toNat
  if 65 ≤ v ∧ v ≤ 90 then some (v - 65)
  else if 97 ≤ v ∧ v ≤ 122 then some (v - 97 + 26)
  else if 48 ≤ v ∧ v ≤ 57 then some (v - 48 + 52)
  else if v = 43 then some 62
  else if v = 47 then some 63
  else none

/-- Character for a base64 sextet (RFC 4648 section 4). -/
def b64Char (n : Nat) : Char :=
  if n < 26 then Char.ofNat (65 + n)
  else if n < 52 then Char.ofNat (97 + n - 26)
  else if n < 62 then Char.ofNat (48 + n - 52)
  else if n = 62 then Char.ofNat 43
  else Char.ofNat 47

/-- Base64 encoding of a byte list (RFC 4648 section 4, with padding), as
the data_encoding crate's `BASE64` encodes. -/
def b64encL : List Nat → List Char
  | [] => []
  | [a] => [b64Char (a / 4), b64Char (a % 4 * 16), '=', '=']
  | [a, b] => [b64Char (a / 4), b64Char (a % 4 * 16 + b / 16), b64Char (b % 16 * 4), '=']
  | a :: b :: c :: rest =>
    b64Char (a / 4) :: b64Char (a % 4 * 16 + b / 16) :: b64Char (b % 16 * 4 + c / 64) ::
      b64Char (c % 64) :: b64encL rest

/-- Base64 decoding (RFC 4648 section 4): canonical, padding required, as
the data_encoding crate's `BASE64` decodes. -/
def b64decL : List Char → Option (List Nat)
  | [] => some []
  | c1 :: c2 :: c3 :: c4 :: rest =>
    match b64CharVal c1, b64CharVal c2 with
    | some s1, some s2 =>
      if c3 = '=' then
        if c4 = '=' ∧ rest = [] ∧ s2 % 16 = 0 then some [s1 * 4 + s2 / 16] else none
      else
        match b64CharVal c3 with
        | some s3 =>
          if c4 = '=' then
            if rest = [] ∧ s3 % 4 = 0 then some [s1 * 4 + s2 / 16, s2 % 16 * 16 + s3 / 4]
            else none
          else
            match b64CharVal c4, b64decL rest with
            | some s4, some tail =>
              some ((s1 * 4 + s2 / 16) :: (s2 % 16 * 16 + s3 / 4) :: (s3 % 4 * 64 + s4) :: tail)
            | _, _ => none
        | none => none
    | _, _ => none
  | _ => none

/-- Base64 encoding as a string, as `BASE64.encode`. -/
def b64encS (l : List Nat) : String := ⟨b64encL l⟩

/-- Base64 decoding of a string, as `BASE64.decode`. -/
def b64decS (s : String) : Option (List Nat) := b64decL s.data

/-- Value of a base32 alphabet character (RFC 4648 section 6, uppercase). -/
def b32CharVal (c : Char) : Option Nat :=
  let v := c.toNat
  if 65 ≤ v ∧ v ≤ 90 then some (v - 65)
  else if 50 ≤ v ∧ v ≤ 55 then some (v - 50 + 26)
  else none

/-- Base32 decoding (RFC 4648 section 6): canonical, padding required, as
the data_encoding crate's `BASE32` decodes. -/
def b32decL : List Char → Option (List Nat)
  | [] => some []
  | c1 :: c2 :: c3 :: c4 :: c5 :: c6 :: c7 :: c8 :: rest =>
    match b32CharVal c1, b32CharVal c2 with
    | some q1, some q2 =>
      if c3 = '=' then
        if c4 = '=' ∧ c5 = '=' ∧ c6 = '=' ∧ c7 = '=' ∧ c8 = '=' ∧ rest = [] ∧ q2 % 4 = 0
        then some [q1 * 8 + q2 / 4] else none
      else
        match b32CharVal c3, b32CharVal c4 with
        | some q3, some q4 =>
          if c5 = '=' then
            if c6 = '=' ∧ c7 = '=' ∧ c8 = '=' ∧ rest = [] ∧ q4 % 16 = 0
            then some [q1 * 8 + q2 / 4, q2 % 4 * 64 + q3 * 2 + q4 / 16] else none
          else
            match b32CharVal c5 with
            | some q5 =>
              if c6 = '=' then
                if c7 = '=' ∧ c8 = '=' ∧ rest = [] ∧ q5 % 2 = 0
                then some [q1 * 8 + q2 / 4, q2 % 4 * 64 + q3 * 2 + q4 / 16,
                  q4 % 16 * 16 + q5 / 2]
                else none
              else
                match b32CharVal c6, b32CharVal c7 with
                | some q6, some q7 =>
                  if c8 = '=' then
                    if rest = [] ∧ q7 % 8 = 0
                    then some [q1 * 8 + q2 / 4, q2 % 4 * 64 + q3 * 2 + q4 / 16,
                      q4 % 16 * 16 + q5 / 2, q5 % 2 * 128 + q6 * 4 + q7 / 8]
                    else none
                  else
                    match b32CharVal c8, b32decL rest with
                    | some q8, some tail =>
                      some ((q1 * 8 + q2 / 4) :: (q2 % 4 * 64 + q3 * 2 + q4 / 16) ::
                        (q4 % 16 * 16 + q5 / 2) :: (q5 % 2 * 128 + q6 * 4 + q7 / 8) ::
                        (q7 % 8 * 32 + q8) :: tail)
                    | _, _ => none
                | _, _ => none
            | none => none
        | _, _ => none
    | _, _ => none
  | _ => none

/-- Base32 decoding of a string, as `BASE32.decode`. -/
def b32decS (s : String) : Option (List Nat) := b32decL s.data

/-- Outcome of a Rust computation: a value, a recoverable `anyhow` error,
or an unrecoverable abort (panic). -/
inductive RustRes (α : Type) where
  | ok (val : α) : RustRes α
  | err (msg : String) : RustRes α
  | fatal (msg : String) : RustRes α
deriving DecidableEq

/-- Hash function selector of `otp.rs` (`enum HashType`). -/
inductive HashType where
  | Sha1 : HashType
  | Sha256 : HashType
  | Sha512 : HashType
deriving DecidableEq

/-- The HOTP client of `otp.rs` (`struct HotpClient`): key bytes, digit
count (`u32`), hash selector. -/
structure HotpClient where
  key : List Nat
  digit : Nat
  hashtype : HashType
deriving DecidableEq

/-- Constructor `HotpClient::new`. -/
def HotpClient.new (key : List Nat) (digit : Nat) (hashtype : HashType) : HotpClient :=
  ⟨key, digit, hashtype⟩

/-- The MAC computed inside `HotpClient::hotp`: HMAC of the 8-byte
big-endian counter under the key, dispatched on the hash selector
(`hmac_sha1` / `hmac_sha256` / `hmac_sha512`). -/
def HotpClient.hmacOf (c : HotpClient) (counter : Nat) : List Nat :=
  match c.hashtype with
  | HashType.Sha1 => hmacSha1 c.key (beBytes 8 counter)
  | HashType.Sha256 => hmacSha256 c.key (beBytes 8 counter)
  | HashType.Sha512 => hmacSha512 c.key (beBytes 8 counter)

/-- Dynamic truncation (`fn dynamic_truncate` in `otp.rs`): offset from the
low 4 bits of the last MAC byte, then the 4 bytes at that offset with the
top bit of the first cleared.  The unchecked Rust indexing (`hs[offset]`,
`hs.last().unwrap()`) panics out of bounds; that outcome is `none` here. -/
def dynamic_truncate (hs : List Nat) : Option (List Nat) :=
  match hs.getLast? with
  | none => none
  | some lastByte =>
    let offset := lastByte &&& 0xf
    match hs.get? offset, hs.get? (offset + 1), hs.get? (offset + 2), hs.get? (offset + 3) with
    | some b0, some b1, some b2, some b3 => some [b0 &&& 0x7f, b1, b2, b3]
    | _, _, _, _ => none

/-- The modulus `10u32.pow(digit)` computed in `HotpClient::hotp`: u32
arithmetic, so the mathematical power is reduced modulo `2 ^ 32` (release
builds wrap on overflow; debug builds would abort). -/
def pow10u32 (d : Nat) : Nat := 10 ^ d % 2 ^ 32

/-- `HotpClient::hotp`: truncate the MAC dynamically, read the 4 bytes
big-endian (`u32::from_be_bytes`), reduce modulo `10u32.pow(digit)`. -/
def HotpClient.hotp (c : HotpClient) (counter : Nat) : Option Nat :=
  match dynamic_truncate (c.hmacOf counter) with
  | none => none
  | some bytes => some (beVal bytes % pow10u32 c.digit)

/-- The TOTP client of `otp.rs` (`struct TotpClient`): an `HotpClient`
plus time step and epoch offset (both `u64`). -/
structure TotpClient where
  hotp : HotpClient
  timestep : Nat
  t0 : Nat
deriving DecidableEq

/-- Constructor `TotpClient::new`. -/
def TotpClient.new (key : List Nat) (timestep t0 digit : Nat) (hashtype : HashType) :
    TotpClient :=
  ⟨HotpClient.new key digit hashtype, timestep, t0⟩

/-- Constructor `TotpClient::from_base32key`: decode the key per RFC 4648
base32 and build the client; decode failure becomes an error value via the
`?` operator (`anyhow` context), never a panic. -/
def TotpClient.from_base32key (key : String) (timestep t0 digit : Nat)
    (hashtype : HashType) : RustRes TotpClient :=
  match b32decS key with
  | none => RustRes.err "Failed to decode base32-encoded key."
  | some k => RustRes.ok ⟨HotpClient.new k digit hashtype, timestep, t0⟩

/-- The `as u64` cast of an `i64` timestamp (two's complement). -/
def i64AsU64 (t : Int) : Nat := (t % (2 ^ 64 : Int)).toNat

/-- Wrapping `u64` subtraction, the release-build semantics of `a - b` in
`TotpClient::totp` (a debug build would abort on underflow). -/
def u64Sub (a b : Nat) : Nat := (a % 2 ^ 64 + (2 ^ 64 - b % 2 ^ 64)) % 2 ^ 64

/-- The counter computed in `TotpClient::totp`:
`((datetime.timestamp() as u64) - self.t0) / self.timestep`. -/
def TotpClient.counterAt (c : TotpClient) (ts : Int) : Nat :=
  u64Sub (i64AsU64 ts) c.t0 / c.timestep

/-- `TotpClient::totp` at the instant with Unix-seconds timestamp `ts`:
derive the counter and delegate to `HotpClient::hotp`.  A zero time step
would make the Rust division panic; that outcome is `none`. -/
def TotpClient.totp (c : TotpClient) (ts : Int) : Option Nat :=
  if c.timestep = 0 then none else c.hotp.hotp (c.counterAt ts)

/-- `TotpClient::digit`. -/
def TotpClient.digit (c : TotpClient) : Nat := c.hotp.digit

/-- Nonce length of ChaCha20Poly1305 (`CHACHA20_NONCE_LEN` in
`database.rs`). -/
def CHACHA20_NONCE_LEN : Nat := 12

/-- Key length of ChaCha20Poly1305 (`CHACHA20_KEY_LEN` in `database.rs`). -/
def CHACHA20_KEY_LEN : Nat := 32

/-- The collection of TOTP clients (`type TotpDatabase` in `database.rs`,
a map from entry name to client; modelled as an association list). -/
abbrev TotpDatabase : Type := List (String × TotpClient)

/-- The serialized container of `database.rs` (`struct EncryptedDatabase`):
base64 nonce, salt string, base64 ciphertext-with-tag. -/
structure EncryptedDatabase where
  nonce : String
  salt : String
  encrypted_data : String
deriving DecidableEq

/-- The external crates used by `database.rs` that are not part of this
repository, as function parameters: Argon2id key derivation
(`hash_password`), the ChaCha20Poly1305 AEAD (`encrypt` / `decrypt`),
`SaltString::new` validation, serde_json for the database and the
container, and UTF-8 conversion (`String::from_utf8`).  Theorems state the
crates' documented behaviour (determinism, round-trips, tag rejection) as
hypotheses where they need it. -/
structure CryptoExt where
  kdf : String → String → List Nat
  aeadEnc : List Nat → List Nat → List Nat → Option (List Nat)
  aeadDec : List Nat → List Nat → List Nat → Option (List Nat)
  saltOk : String → Bool
  serializeDb : TotpDatabase → Option String
  deserializeDb : String → Option TotpDatabase
  utf8Enc : String → List Nat
  utf8Dec : List Nat → Option String
  containerEnc : EncryptedDatabase → Option String
  containerDec : String → Option EncryptedDatabase

/-- The nonce built in `EncryptedDatabase::encrypt`: the 8 big-endian
bytes of the current Unix-millisecond timestamp (`i64::to_be_bytes`),
extended with sampled random bytes up to `CHACHA20_NONCE_LEN`.  `rnd` is
the random byte stream (`thread_rng`), reduced modulo 256 per draw. -/
def encryptNonce (millis : Int) (rnd : Nat → Nat) : List Nat :=
  let ts := beBytes 8 (i64AsU64 millis)
  ts ++ (List.range (CHACHA20_NONCE_LEN - ts.length)).map (fun i => rnd i % 256)

/-- `EncryptedDatabase::encrypt`: derive the key from the password and the
freshly generated salt, build the timestamp+random nonce, serialize the
database, seal it, and assemble the container with base64 fields.  The
randomness (salt string, millisecond timestamp, random stream) is passed
explicitly. -/
def EncryptedDatabase.encrypt (ext : CryptoExt) (millis : Int) (rnd : Nat → Nat)
    (saltStr : String) (database : TotpDatabase) (password : String) :
    RustRes EncryptedDatabase :=
  let key := ext.kdf password saltStr
  let nonce := encryptNonce millis rnd
  match ext.serializeDb database with
  | none => RustRes.err "serialize error"
  | some serialized =>
    match ext.aeadEnc key nonce (ext.utf8Enc serialized) with
    | none => RustRes.err "Encryption failed"
    | some encrypted =>
      RustRes.ok ⟨b64encS nonce, saltStr, b64encS encrypted⟩

/-- `EncryptedDatabase::decrypt`: decode the base64 nonce (`?`, an error
value), rebuild the 12-byte nonce (`Nonce::from_slice`, which panics on
any other length), revalidate the salt (`SaltString::new(..).unwrap()`,
which panics on a malformed salt), decode the base64 ciphertext (`?`),
derive the key, open the AEAD (tag failure is an error via `bail!`),
decode UTF-8 and deserialize (`?`). -/
def EncryptedDatabase.decrypt (ext : CryptoExt) (e : EncryptedDatabase)
    (password : String) : RustRes TotpDatabase :=
  match b64decS e.nonce with
  | none => RustRes.err "invalid base64"
  | some nonce =>
    if nonce.length = CHACHA20_NONCE_LEN then
      if ext.saltOk e.salt then
        match b64decS e.encrypted_data with
        | none => RustRes.err "invalid base64"
        | some encrypted =>
          let key := ext.kdf password e.salt
          match ext.aeadDec key nonce encrypted with
          | none => RustRes.err "Decryption failed"
          | some serialized =>
            match ext.utf8Dec serialized with
            | none => RustRes.err "invalid utf8"
            | some s =>
              match ext.deserializeDb s with
              | none => RustRes.err "deserialize error"
              | some database => RustRes.ok database
      else RustRes.fatal "SaltString::new failed"
    else RustRes.fatal "Nonce::from_slice: length mismatch"

/-- `save_database`: encrypt the database and write the serde_json
rendering of the container as the whole file content (returned here as the
written string). -/
def save_database (ext : CryptoExt) (millis : Int) (rnd : Nat → Nat) (saltStr : String)
    (database : TotpDatabase) (password : String) : RustRes String :=
  match EncryptedDatabase.encrypt ext millis rnd saltStr database password with
  | RustRes.ok enc_db =>
    match ext.containerEnc enc_db with
    | none => RustRes.err "serialize error"
    | some content => RustRes.ok content
  | RustRes.err m => RustRes.err m
  | RustRes.fatal m => RustRes.fatal m

/-- `load_database`: parse the file content as the container
(serde_json, `?`), then decrypt. -/
def load_database (ext : CryptoExt) (content : String) (password : String) :
    RustRes TotpDatabase :=
  match ext.containerDec content with
  | none => RustRes.err "container parse error"
  | some enc_db => enc_db.decrypt ext password

/-- A big-endian encoding has exactly the requested number of bytes. -/
theorem beBytes_length (n x : Nat) : (beBytes n x).length = n := by
  induction n generalizing x with
  | zero => rfl
  | succ n ih => simp [beBytes, ih]

/-- Every byte produced by a big-endian encoding is below 256. -/
theorem beBytes_lt (n x : Nat) : ∀ b ∈ beBytes n x, b < 256 := by
  induction n generalizing x with
  | zero => simp [beBytes]
  | succ n ih =>
    intro b hb
    simp only [beBytes, List.mem_append, List.mem_singleton] at hb
    rcases hb with hb | hb
    · exact ih _ b hb
    · omega

/-- SHA-1 digests have 20 bytes. -/
theorem sha1_length (msg : List Nat) : (sha1 msg).length = 20 := by
  simp [sha1, beBytes_length]

/-- SHA-256 digests have 32 bytes. -/
theorem sha256_length (msg : List Nat) : (sha256 msg).length = 32 := by
  simp [sha256, beBytes_length]

/-- SHA-512 digests have 64 bytes. -/
theorem sha512_length (msg : List Nat) : (sha512 msg).length = 64 := by
  simp [sha512, beBytes_length]

/-- HMAC-SHA-1 MACs have 20 bytes. -/
theorem hmacSha1_length (key msg : List Nat) : (hmacSha1 key msg).length = 20 := by
  simp [hmacSha1, hmac, sha1_length]

/-- HMAC-SHA-256 MACs have 32 bytes. -/
theorem hmacSha256_length (key msg : List Nat) : (hmacSha256 key msg).length = 32 := by
  simp [hmacSha256, hmac, sha256_length]

/-- HMAC-SHA-512 MACs have 64 bytes. -/
theorem hmacSha512_length (key msg : List Nat) : (hmacSha512 key msg).length = 64 := by
  simp [hmacSha512, hmac, sha512_length]

/-- The MAC inside `hotp` has 20, 32 or 64 bytes according to the hash. -/
theorem hmacOf_length (c : HotpClient) (counter : Nat) :
    (c.hmacOf counter).length = 20 ∨ (c.hmacOf counter).length = 32 ∨
      (c.hmacOf counter).length = 64 := by
  cases h : c.hashtype <;>
    simp [HotpClient.hmacOf, h, hmacSha1_length, hmacSha256_length, hmacSha512_length]

/-- Decoding a base64 alphabet character recovers the sextet. -/
theorem b64CharVal_b64Char (n : Nat) (h : n < 64) : b64CharVal (b64Char n) = some n := by
  interval_cases n <;> decide

/-- No base64 alphabet character is the padding character. -/
theorem b64Char_ne_pad (n : Nat) (h : n < 64) : b64Char n ≠ '=' := by
  interval_cases n <;> decide

/-- Base64 decoding inverts base64 encoding on byte lists. -/
theorem b64_roundtrip (l : List Nat) (h : ∀ b ∈ l, b < 256) :
    b64decL (b64encL l) = some l := by
  induction l using b64encL.induct with
  | case1 => rfl
  | case2 a =>
    have ha : a < 256 := h a (by simp)
    have h1 : a / 4 < 64 := by omega
    have h2 : a % 4 * 16 < 64 := by omega
    simp only [b64encL, b64decL, b64CharVal_b64Char _ h1, b64CharVal_b64Char _ h2]
    have : a % 4 * 16 % 16 = 0 := by omega
    simp [this]
    omega
  | case3 a b =>
    have ha : a < 256 := h a (by simp)
    have hb : b < 256 := h b (by simp)
    have h1 : a / 4 < 64 := by omega
    have h2 : a % 4 * 16 + b / 16 < 64 := by omega
    have h3 : b % 16 * 4 < 64 := by omega
    simp only [b64encL, b64decL, b64CharVal_b64Char _ h1, b64CharVal_b64Char _ h2,
      b64CharVal_b64Char _ h3]
    have hne : b64Char (b % 16 * 4) ≠ '=' := b64Char_ne_pad _ h3
    simp [hne]
    omega
  | case4 a b c rest ih =>
    have ha : a < 256 := h a (by simp)
    have hb : b < 256 := h b (by simp)
    have hc : c < 256 := h c (by simp)
    have h1 : a / 4 < 64 := by omega
    have h2 : a % 4 * 16 + b / 16 < 64 := by omega
    have h3 : b % 16 * 4 + c / 64 < 64 := by omega
    have h4 : c % 64 < 64 := by omega
    have ihr := ih (fun x hx => h x (by simp [hx]))
    simp only [b64encL, b64decL, b64CharVal_b64Char _ h1, b64CharVal_b64Char _ h2,
      b64CharVal_b64Char _ h3, b64CharVal_b64Char _ h4,
      b64Char_ne_pad _ h3, b64Char_ne_pad _ h4, if_neg, ihr]
    simp [b64Char_ne_pad _ h3, b64Char_ne_pad _ h4]
    omega

/-- String-level base64 round-trip. -/
theorem b64S_roundtrip (l : List Nat) (h : ∀ b ∈ l, b < 256) :
    b64decS (b64encS l) = some l := b64_roundtrip l h

/-- The nonce built by `encrypt` is the 8 timestamp bytes followed by 4
random bytes. -/
theorem encryptNonce_eq (millis : Int) (rnd : Nat → Nat) :
    encryptNonce millis rnd =
      beBytes 8 (i64AsU64 millis) ++ [rnd 0 % 256, rnd 1 % 256, rnd 2 % 256, rnd 3 % 256] := by
  simp [encryptNonce, beBytes_length, CHACHA20_NONCE_LEN, List.range_succ]

/-- The nonce built by `encrypt` has exactly 12 bytes. -/
theorem encryptNonce_length (millis : Int) (rnd : Nat → Nat) :
    (encryptNonce millis rnd).length = 12 := by
  rw [encryptNonce_eq]
  simp [beBytes_length]

/-- Every byte of the nonce built by `encrypt` is below 256. -/
theorem encryptNonce_lt (millis : Int) (rnd : Nat → Nat) :
    ∀ b ∈ encryptNonce millis rnd, b < 256 := by
  rw [encryptNonce_eq]
  intro b hb
  simp only [List.mem_append] at hb
  rcases hb with hb | hb
  · exact beBytes_lt _ _ b hb
  · simp only [List.mem_cons, List.not_mem_nil, or_false] at hb
    rcases hb with h | h | h | h <;> subst h <;> exact Nat.mod_lt _ (by omega)

/-- The RFC 4226 reference computation of HOTP as the specification words
it (spec 4.2): compute the HMAC of the 8-byte big-endian counter under the
key with the selected hash, let the offset be the low 4 bits of the last
MAC byte, take the 4 bytes at that offset, mask the highest bit of the
first, read them as a big-endian 32-bit unsigned integer, and reduce
modulo `10 ^ digitCount`.  This is the refinement target `hotp` is
compared with, not a copy of the code. -/
def hotpRfc (c : HotpClient) (counter : Nat) : Option Nat :=
  match (c.hmacOf counter).getLast? with
  | none => none
  | some lastByte =>
    if (lastByte &&& 0xf) + 4 ≤ (c.hmacOf counter).length then
      some (beVal
        (((((c.hmacOf counter).drop (lastByte &&& 0xf)).take 4).headD 0 &&& 0x7f) ::
          ((((c.hmacOf counter).drop (lastByte &&& 0xf)).take 4).tail)) % 10 ^ c.digit)
    else none

/-- Four consecutive in-bounds positions determine `take 4` of a `drop`. -/
theorem take_drop_four {l : List Nat} {o b0 b1 b2 b3 : Nat}
    (h0 : l.get? o = some b0) (h1 : l.get? (o + 1) = some b1)
    (h2 : l.get? (o + 2) = some b2) (h3 : l.get? (o + 3) = some b3) :
    (l.drop o).take 4 = [b0, b1, b2, b3] := by
  simp only [List.get?_eq_getElem?] at h0 h1 h2 h3
  apply List.ext_getElem?
  intro n
  simp only [List.getElem?_take, List.getElem?_drop]
  match n with
  | 0 => simpa using h0
  | 1 => simpa using h1
  | 2 => simpa using h2
  | 3 => simpa using h3
  | m + 4 => simp

/-- On a MAC whose length covers the derived offset, dynamic truncation
succeeds and returns the four selected bytes with the first masked. -/
theorem dynamic_truncate_of_inbounds (hs : List Nat) (lastB : Nat)
    (hl : hs.getLast? = some lastB) (hb : (lastB &&& 0xf) + 4 ≤ hs.length) :
    ∃ b0 b1 b2 b3,
      hs.get? (lastB &&& 0xf) = some b0 ∧ hs.get? ((lastB &&& 0xf) + 1) = some b1 ∧
      hs.get? ((lastB &&& 0xf) + 2) = some b2 ∧ hs.get? ((lastB &&& 0xf) + 3) = some b3 ∧
      dynamic_truncate hs = some [b0 &&& 0x7f, b1, b2, b3] := by
  obtain ⟨b0, e0⟩ : ∃ x, hs.get? (lastB &&& 0xf) = some x := by
    simp only [List.get?_eq_getElem?]
    exact ⟨_, List.getElem?_eq_getElem (by omega)⟩
  obtain ⟨b1, e1⟩ : ∃ x, hs.get? ((lastB &&& 0xf) + 1) = some x := by
    simp only [List.get?_eq_getElem?]
    exact ⟨_, List.getElem?_eq_getElem (by omega)⟩
  obtain ⟨b2, e2⟩ : ∃ x, hs.get? ((lastB &&& 0xf) + 2) = some x := by
    simp only [List.get?_eq_getElem?]
    exact ⟨_, List.getElem?_eq_getElem (by omega)⟩
  obtain ⟨b3, e3⟩ : ∃ x, hs.get? ((lastB &&& 0xf) + 3) = some x := by
    simp only [List.get?_eq_getElem?]
    exact ⟨_, List.getElem?_eq_getElem (by omega)⟩
  refine ⟨b0, b1, b2, b3, e0, e1, e2, e3, ?_⟩
  unfold dynamic_truncate
  rw [hl]
  simp only [e0, e1, e2, e3]

/-- The MAC inside `hotp` always ends somewhere: it is nonempty. -/
theorem hmacOf_getLast (c : HotpClient) (counter : Nat) :
    ∃ lastB, (c.hmacOf counter).getLast? = some lastB := by
  have hne : c.hmacOf counter ≠ [] := by
    intro hcon
    have := hmacOf_length c counter
    rw [hcon] at this
    simp at this
  cases hx : (c.hmacOf counter).getLast? with
  | none => exact absurd (List.getLast?_eq_none_iff.mp hx) hne
  | some x => exact ⟨x, rfl⟩

/-- The ASCII key of the RFC 4226 test vectors
(`"12345678901234567890"`). -/
def rfc4226Key : List Nat :=
  [49, 50, 51, 52, 53, 54, 55, 56, 57, 48, 49, 50, 51, 52, 53, 54, 55, 56, 57, 48]

/-- C10: for every key, counter and hash kind, the MAC fed into dynamic
truncation has at least 20 bytes, the derived offset is at most 15, and
`hotp` succeeds (no out-of-bounds access). -/
theorem hotp_truncation_in_bounds (c : HotpClient) (counter : Nat) :
    20 ≤ (c.hmacOf counter).length ∧
    ((c.hmacOf counter).getLastD 0 &&& 0xf) ≤ 15 ∧
    (c.hotp counter).isSome = true := by
  have hlen : 20 ≤ (c.hmacOf counter).length := by
    rcases hmacOf_length c counter with h | h | h <;> omega
  refine ⟨hlen, Nat.and_le_right, ?_⟩
  obtain ⟨lastB, hl⟩ := hmacOf_getLast c counter
  have hoff : lastB &&& 0xf ≤ 15 := Nat.and_le_right
  obtain ⟨b0, b1, b2, b3, _, _, _, _, hdt⟩ :=
    dynamic_truncate_of_inbounds (c.hmacOf counter) lastB hl (by omega)
  simp [HotpClient.hotp, hdt]

/-- C2 (amended): for digit counts at most 9 — where `10u32.pow(digit)`
does not overflow — `hotp` computes exactly the RFC 4226 reference value:
dynamic truncation then reduction modulo the mathematical
`10 ^ digitCount`. -/
theorem hotp_matches_rfc (c : HotpClient) (counter : Nat) (h9 : c.digit ≤ 9) :
    c.hotp counter = hotpRfc c counter := by
  obtain ⟨lastB, hl⟩ := hmacOf_getLast c counter
  have hlen : 20 ≤ (c.hmacOf counter).length := by
    rcases hmacOf_length c counter with h | h | h <;> omega
  have hoff : lastB &&& 0xf ≤ 15 := Nat.and_le_right
  have hb : (lastB &&& 0xf) + 4 ≤ (c.hmacOf counter).length := by omega
  obtain ⟨b0, b1, b2, b3, e0, e1, e2, e3, hdt⟩ :=
    dynamic_truncate_of_inbounds (c.hmacOf counter) lastB hl hb
  have hfour : ((c.hmacOf counter).drop (lastB &&& 0xf)).take 4 = [b0, b1, b2, b3] :=
    take_drop_four e0 e1 e2 e3
  have hpow : pow10u32 c.digit = 10 ^ c.digit := by
    unfold pow10u32
    apply Nat.mod_eq_of_lt
    calc 10 ^ c.digit ≤ 10 ^ 9 := Nat.pow_le_pow_right (by omega) h9
    _ < 2 ^ 32 := by norm_num
  unfold HotpClient.hotp hotpRfc
  rw [hdt, hl]
  simp [hfour, hb, hpow]

set_option maxHeartbeats 4000000 in
/-- C2 witness for the amended theorem: the equality applied at the RFC
key, 6 digits, SHA-1, counter 1, together with the evaluated value. -/
theorem hotp_matches_rfc_check :
    HotpClient.hotp ⟨rfc4226Key, 6, HashType.Sha1⟩ 1 =
      hotpRfc ⟨rfc4226Key, 6, HashType.Sha1⟩ 1 ∧
    HotpClient.hotp ⟨rfc4226Key, 6, HashType.Sha1⟩ 1 = some 287082 :=
  ⟨hotp_matches_rfc ⟨rfc4226Key, 6, HashType.Sha1⟩ 1 (by decide), by decide⟩

set_option maxHeartbeats 8000000 in
/-- C2 counterexample to the claim as stated: at 10 digits the u32 power
wraps, so `hotp` diverges from the RFC reference value (RFC key, SHA-1,
counter 3: truncated value 1726969429 reduced modulo the wrapped
1410065408 instead of modulo `10 ^ 10`). -/
theorem hotp_digit_ten_diverges_rfc :
    HotpClient.hotp ⟨rfc4226Key, 10, HashType.Sha1⟩ 3 ≠
      hotpRfc ⟨rfc4226Key, 10, HashType.Sha1⟩ 3 := by decide

set_option maxHeartbeats 16000000 in
/-- C3: HOTP with the ASCII key "12345678901234567890", 6 digits and
SHA-1 yields exactly the RFC 4226 appendix D codes at counters 0..9. -/
theorem hotp_rfc4226_vectors :
    (List.range 10).map (fun i => HotpClient.hotp ⟨rfc4226Key, 6, HashType.Sha1⟩ i) =
      [some 755224, some 287082, some 359152, some 969429, some 338314,
       some 254676, some 287922, some 162583, some 399871, some 520489] := by decide

/-- C5 counterexample to the claim as stated: at digit count 10 the
computation of `10u32.pow(digit)` overflows u32, so the wrapped modulus
used by `hotp` is not the mathematical `10 ^ 10`. -/
theorem pow10_digit_ten_wraps : pow10u32 10 ≠ 10 ^ 10 := by decide

/-- C5 (amended): for every digit count in [1, 10] the code returned by
`hotp` lies in `[0, 10 ^ digitCount)`; the power computation stays inside
u32 only for digit counts up to 9, while at 10 digits it wraps (the bound
then holds because the wrapped modulus is itself below `10 ^ 10`). -/
theorem hotp_output_bound (c : HotpClient) (counter : Nat)
    (h1 : 1 ≤ c.digit) (h10 : c.digit ≤ 10) :
    (∀ code, c.hotp counter = some code → code < 10 ^ c.digit) ∧
    (c.digit ≤ 9 → pow10u32 c.digit = 10 ^ c.digit) := by
  have hpow9 : c.digit ≤ 9 → pow10u32 c.digit = 10 ^ c.digit := by
    intro h9
    unfold pow10u32
    apply Nat.mod_eq_of_lt
    calc 10 ^ c.digit ≤ 10 ^ 9 := Nat.pow_le_pow_right (by omega) h9
    _ < 2 ^ 32 := by norm_num
  refine ⟨?_, hpow9⟩
  intro code hcode
  unfold HotpClient.hotp at hcode
  rcases hdt : dynamic_truncate (c.hmacOf counter) with _ | bytes
  · rw [hdt] at hcode
    exact absurd hcode (by simp)
  · rw [hdt] at hcode
    simp only [Option.some.injEq] at hcode
    subst hcode
    rcases Nat.lt_or_ge c.digit 10 with h9 | h9
    · rw [hpow9 (by omega)]
      exact Nat.mod_lt _ (Nat.pos_pow_of_pos _ (by omega))
    · have hd : c.digit = 10 := by omega
      rw [hd]
      have : pow10u32 10 = 1410065408 := by decide
      rw [this]
      have := Nat.mod_lt (beVal bytes) (show 0 < 1410065408 by omega)
      omega

set_option maxHeartbeats 4000000 in
/-- C5 witness: the amended bound applied at the RFC key, 6 digits,
SHA-1, counter 0, instantiated at the evaluated code 755224. -/
theorem hotp_output_bound_check :
    HotpClient.hotp ⟨rfc4226Key, 6, HashType.Sha1⟩ 0 = some 755224 ∧ 755224 < 10 ^ 6 :=
  ⟨by decide,
    (hotp_output_bound ⟨rfc4226Key, 6, HashType.Sha1⟩ 0 (by decide) (by decide)).1
      755224 (by decide)⟩

/-- C9: on every save the nonce is exactly 12 bytes: the 8-byte
big-endian Unix-millisecond timestamp followed by 4 freshly drawn random
bytes. -/
theorem encrypt_nonce_structure (millis : Int) (rnd : Nat → Nat) :
    (encryptNonce millis rnd).length = 12 ∧
    encryptNonce millis rnd =
      beBytes 8 (i64AsU64 millis) ++
        [rnd 0 % 256, rnd 1 % 256, rnd 2 % 256, rnd 3 % 256] :=
  ⟨encryptNonce_length millis rnd, encryptNonce_eq millis rnd⟩

/-- The u64 cast of an i64 is below `2 ^ 64`. -/
theorem i64AsU64_lt (t : Int) : i64AsU64 t < 2 ^ 64 := by
  unfold i64AsU64
  have h1 : (0 : Int) ≤ t % 2 ^ 64 := Int.emod_nonneg t (by norm_num)
  have h2 : t % 2 ^ 64 < 2 ^ 64 := Int.emod_lt_of_pos t (by norm_num)
  omega

/-- C6 (amended): `totp` computes the counter with wrapping u64
subtraction.  When the timestamp reaches the epoch offset this is the
specified `floor((unixSeconds - t0) / timeStep)`; when the timestamp
precedes the epoch offset the subtraction wraps modulo `2 ^ 64` to a huge
counter — the implementation neither rejects that input nor saturates to
counter 0 (a debug build would abort).  The counter is then passed to
`hotp`. -/
theorem totp_counter_formula (c : TotpClient) (ts : Int) (h64 : c.t0 < 2 ^ 64) :
    (c.t0 ≤ i64AsU64 ts → c.counterAt ts = (i64AsU64 ts - c.t0) / c.timestep) ∧
    (i64AsU64 ts < c.t0 →
      c.counterAt ts = (i64AsU64 ts + (2 ^ 64 - c.t0)) / c.timestep) ∧
    (c.timestep ≠ 0 → c.totp ts = c.hotp.hotp (c.counterAt ts)) := by
  have hlt := i64AsU64_lt ts
  refine ⟨?_, ?_, ?_⟩
  · intro hge
    unfold TotpClient.counterAt
    congr 1
    unfold u64Sub
    omega
  · intro hl
    unfold TotpClient.counterAt
    congr 1
    unfold u64Sub
    omega
  · intro hne
    unfold TotpClient.totp
    rw [if_neg hne]

/-- C6 witness: the wrap case of the formula applied at a concrete client
with epoch offset 30 and a timestamp before it. -/
theorem totp_counter_formula_check :
    i64AsU64 0 < (TotpClient.new [49] 30 30 6 HashType.Sha1).t0 ∧
    (TotpClient.new [49] 30 30 6 HashType.Sha1).counterAt 0 =
      (i64AsU64 0 + (2 ^ 64 - 30)) / 30 :=
  ⟨by decide,
    (totp_counter_formula (TotpClient.new [49] 30 30 6 HashType.Sha1) 0 (by decide)).2.1
      (by decide)⟩

set_option maxHeartbeats 4000000 in
/-- C6 counterexample to the claim as stated: with time step 30 and epoch
offset 30, at Unix time 0 the u64 subtraction wraps and the counter is
614891469123651719 — not 0, and the input is not rejected (`totp` still
produces a code). -/
theorem totp_counter_underflow_wraps :
    (TotpClient.new [49] 30 30 6 HashType.Sha1).counterAt 0 = 614891469123651719 ∧
    ((TotpClient.new [49] 30 30 6 HashType.Sha1).totp 0).isSome = true := by decide

/-- C8 counterexample to the claim as stated: a digit count of 11 — far
outside [1, 10] — is accepted by `from_base32key` without any
`InvalidDigitCount` error, producing an entry with that digit count. -/
theorem digit_out_of_range_accepted :
    TotpClient.from_base32key "GEZDGNBV" 30 0 11 HashType.Sha1 =
      RustRes.ok (TotpClient.new [49, 50, 51, 52, 53] 30 0 11 HashType.Sha1) := by decide

/-- C8 (amended): the public constructors perform no digit-count
validation: `TotpClient::new` builds an entry for every digit count, and
`from_base32key` fails only on a base32 decode failure, passing any digit
count through. -/
theorem constructors_accept_any_digit (key : List Nat) (keyStr : String)
    (timestep t0 digit : Nat) (hashtype : HashType)
    (hkey : b32decS keyStr = some key) :
    TotpClient.new key timestep t0 digit hashtype =
      ⟨⟨key, digit, hashtype⟩, timestep, t0⟩ ∧
    TotpClient.from_base32key keyStr timestep t0 digit hashtype =
      RustRes.ok ⟨⟨key, digit, hashtype⟩, timestep, t0⟩ := by
  constructor
  · rfl
  · unfold TotpClient.from_base32key
    rw [hkey]
    rfl

/-- C8 witness: the amended statement applied at digit count 0 (also
outside [1, 10]) with a five-byte base32 key. -/
theorem constructors_accept_any_digit_check :
    TotpClient.from_base32key "GEZDGNBV" 30 0 0 HashType.Sha1 =
      RustRes.ok ⟨⟨[49, 50, 51, 52, 53], 0, HashType.Sha1⟩, 30, 0⟩ :=
  (constructors_accept_any_digit [49, 50, 51, 52, 53] "GEZDGNBV" 30 0 0 HashType.Sha1
    (by decide)).2

/-- A trivial instantiation of the external-crate parameters, used to
evaluate the database layer on concrete containers. -/
def extTrivial : CryptoExt where
  kdf := fun _ _ => []
  aeadEnc := fun _ _ p => some p
  aeadDec := fun _ _ _ => none
  saltOk := fun _ => true
  serializeDb := fun _ => some ""
  deserializeDb := fun _ => some []
  utf8Enc := fun _ => []
  utf8Dec := fun _ => some ""
  containerEnc := fun _ => some ""
  containerDec := fun _ => none

/-- An instantiation whose salt validation rejects every salt. -/
def extBadSalt : CryptoExt := { extTrivial with saltOk := fun _ => false }

/-- C7 (amended): `from_base32key` surfaces decode failure as an error
value and never aborts, and `load` returns typed errors for base64
failures — but a container whose nonce field decodes to any length other
than 12 bytes makes `decrypt` abort (`Nonce::from_slice` panics), and a
malformed salt makes it abort as well (`SaltString::new(..).unwrap()`). -/
theorem public_error_paths :
    (∀ (key : String) (timestep t0 digit : Nat) (ht : HashType) (m : String),
      TotpClient.from_base32key key timestep t0 digit ht ≠ RustRes.fatal m) ∧
    (∀ (ext : CryptoExt) (e : EncryptedDatabase) (password : String),
      b64decS e.nonce = none →
        EncryptedDatabase.decrypt ext e password = RustRes.err "invalid base64") ∧
    (∀ (ext : CryptoExt) (e : EncryptedDatabase) (password : String) (nonce : List Nat),
      b64decS e.nonce = some nonce → nonce.length ≠ 12 →
        EncryptedDatabase.decrypt ext e password =
          RustRes.fatal "Nonce::from_slice: length mismatch") ∧
    (∀ (ext : CryptoExt) (e : EncryptedDatabase) (password : String) (nonce : List Nat),
      b64decS e.nonce = some nonce → nonce.length = 12 → ext.saltOk e.salt = false →
        EncryptedDatabase.decrypt ext e password = RustRes.fatal "SaltString::new failed") := by
  refine ⟨?_, ?_, ?_, ?_⟩
  · intro key timestep t0 digit ht m
    unfold TotpClient.from_base32key
    cases b32decS key <;> simp
  · intro ext e password hn
    unfold EncryptedDatabase.decrypt
    rw [hn]
  · intro ext e password nonce hn hlen
    unfold EncryptedDatabase.decrypt
    rw [hn]
    simp only [CHACHA20_NONCE_LEN]
    rw [if_neg hlen]
  · intro ext e password nonce hn hlen hsalt
    unfold EncryptedDatabase.decrypt
    rw [hn]
    simp only [CHACHA20_NONCE_LEN]
    rw [if_pos hlen, hsalt]
    simp

/-- C7 witness: the four branches applied at concrete inputs: an invalid
base32 key, a container with an undecodable nonce field, one with a
3-byte nonce, and one with a 12-byte nonce but rejected salt. -/
theorem public_error_paths_check :
    TotpClient.from_base32key "1" 30 0 6 HashType.Sha1 ≠ RustRes.fatal "x" ∧
    EncryptedDatabase.decrypt extTrivial ⟨"!", "s", ""⟩ "pw" = RustRes.err "invalid base64" ∧
    EncryptedDatabase.decrypt extTrivial ⟨"AAAA", "s", ""⟩ "pw" =
      RustRes.fatal "Nonce::from_slice: length mismatch" ∧
    EncryptedDatabase.decrypt extBadSalt ⟨"AAAAAAAAAAAAAAAA", "s", ""⟩ "pw" =
      RustRes.fatal "SaltString::new failed" :=
  ⟨public_error_paths.1 "1" 30 0 6 HashType.Sha1 "x",
   public_error_paths.2.1 extTrivial ⟨"!", "s", ""⟩ "pw" (by decide),
   public_error_paths.2.2.1 extTrivial ⟨"AAAA", "s", ""⟩ "pw" [0, 0, 0] (by decide)
     (by decide),
   public_error_paths.2.2.2 extBadSalt ⟨"AAAAAAAAAAAAAAAA", "s", ""⟩ "pw"
     [0, 0, 0, 0, 0, 0, 0, 0, 0, 0, 0, 0] (by decide) (by decide) (by decide)⟩

/-- C7 counterexample to the claim as stated: loading a well-formed
container whose nonce field holds valid base64 of the wrong length (3
bytes) does not return an error value — the code aborts in
`Nonce::from_slice`. -/
theorem decrypt_wrong_length_nonce_aborts :
    EncryptedDatabase.decrypt extTrivial ⟨"AAAA", "somesalt", ""⟩ "password" =
      RustRes.fatal "Nonce::from_slice: length mismatch" := by decide

/-- C4: whenever the AEAD rejects the presented ciphertext under the
derived key — the chacha20poly1305 crate's documented behaviour for a
tampered ciphertext, a wrong password (hence wrong key), or a wrong nonce
— `decrypt` fails with the decryption error and `load` never returns any
vault: decryption is all-or-nothing, with no partial plaintext output. -/
theorem decrypt_auth_failure_all_or_nothing (ext : CryptoExt) (e : EncryptedDatabase)
    (password : String) (nonce encrypted : List Nat)
    (hn : b64decS e.nonce = some nonce) (hlen : nonce.length = 12)
    (hsalt : ext.saltOk e.salt = true)
    (hd : b64decS e.encrypted_data = some encrypted)
    (haead : ext.aeadDec (ext.kdf password e.salt) nonce encrypted = none) :
    EncryptedDatabase.decrypt ext e password = RustRes.err "Decryption failed" ∧
    (∀ (content : String) (database : TotpDatabase),
      ext.containerDec content = some e →
        load_database ext content password ≠ RustRes.ok database) := by
  have hdec : EncryptedDatabase.decrypt ext e password = RustRes.err "Decryption failed" := by
    unfold EncryptedDatabase.decrypt
    rw [hn]
    simp only [CHACHA20_NONCE_LEN]
    rw [if_pos hlen, hsalt, hd]
    simp [haead]
  refine ⟨hdec, ?_⟩
  intro content database hcont
  unfold load_database
  rw [hcont]
  simp only [hdec]
  simp

/-- The container used by the C4 witness: 12-byte zero nonce, empty
ciphertext. -/
def eAuthFail : EncryptedDatabase := ⟨"AAAAAAAAAAAAAAAA", "somesalt", ""⟩

/-- External-crate instantiation for the C4 witness: the AEAD rejects
everything and the container parser returns the witness container. -/
def extAuthFail : CryptoExt := { extTrivial with containerDec := fun _ => some eAuthFail }

/-- C4 witness: the theorem applied at the witness container. -/
theorem decrypt_auth_failure_all_or_nothing_check :
    EncryptedDatabase.decrypt extAuthFail eAuthFail "pw" = RustRes.err "Decryption failed" ∧
    load_database extAuthFail "file" "pw" ≠ RustRes.ok ([] : TotpDatabase) := by
  have h := decrypt_auth_failure_all_or_nothing extAuthFail eAuthFail "pw"
    [0, 0, 0, 0, 0, 0, 0, 0, 0, 0, 0, 0] [] (by decide) (by decide) (by decide) (by decide)
    (by decide)
  exact ⟨h.1, h.2 "file" [] (by decide)⟩

/-- C1: saving a vault and loading the produced file content with the same
password returns the same vault.  The hypotheses are the documented
round-trip behaviour of the external crates at the values used: serde_json
inverts itself on the database and on the container, UTF-8 decoding
inverts encoding, the AEAD opens its own sealing under the same key and
nonce, the generated salt is valid, and the ciphertext is bytes. -/
theorem save_load_roundtrip (ext : CryptoExt) (millis : Int) (rnd : Nat → Nat)
    (saltStr password : String) (database : TotpDatabase) (s : String)
    (encrypted : List Nat) (content : String)
    (hser : ext.serializeDb database = some s)
    (hde : ext.deserializeDb s = some database)
    (hutf : ext.utf8Dec (ext.utf8Enc s) = some s)
    (hsalt : ext.saltOk saltStr = true)
    (henc : ext.aeadEnc (ext.kdf password saltStr) (encryptNonce millis rnd)
        (ext.utf8Enc s) = some encrypted)
    (h256 : ∀ b ∈ encrypted, b < 256)
    (hdec : ext.aeadDec (ext.kdf password saltStr) (encryptNonce millis rnd)
        encrypted = some (ext.utf8Enc s))
    (hsave : save_database ext millis rnd saltStr database password = RustRes.ok content)
    (hcont : ext.containerDec content =
        some ⟨b64encS (encryptNonce millis rnd), saltStr, b64encS encrypted⟩) :
    load_database ext content password = RustRes.ok database := by
  unfold load_database
  rw [hcont]
  unfold EncryptedDatabase.decrypt
  simp only
  rw [b64S_roundtrip _ (encryptNonce_lt millis rnd)]
  simp only [CHACHA20_NONCE_LEN]
  rw [if_pos (encryptNonce_length millis rnd), hsalt]
  simp only [if_true]
  rw [b64S_roundtrip _ h256]
  simp only [hdec, hutf, hde]

/-- External-crate instantiation for the C1 witness: identity AEAD over
the empty database serialization, container codec pinned to the produced
container. -/
def extRound : CryptoExt where
  kdf := fun _ _ => []
  aeadEnc := fun _ _ p => some p
  aeadDec := fun _ _ cc => some cc
  saltOk := fun _ => true
  serializeDb := fun _ => some ""
  deserializeDb := fun _ => some []
  utf8Enc := fun _ => []
  utf8Dec := fun _ => some ""
  containerEnc := fun _ => some "file"
  containerDec := fun _ => some ⟨"AAAAAAAAAAAAAAAA", "salt", ""⟩

/-- C1 witness: a concrete save producing a file content, and the
round-trip theorem applied to it, recovering the empty vault. -/
theorem save_load_roundtrip_check :
    save_database extRound 0 (fun _ => 0) "salt" ([] : TotpDatabase) "pw" =
      RustRes.ok "file" ∧
    load_database extRound "file" "pw" = RustRes.ok ([] : TotpDatabase) :=
  ⟨by decide,
    save_load_roundtrip extRound 0 (fun _ => 0) "salt" "pw" [] "" [] "file"
      (by decide) (by decide) (by decide) (by decide) (by decide) (by simp) (by decide)
      (by decide) (by decide)⟩
